import Mathlib

/-!
Verification of the stock-picker core (src/stockpicker): the two-tier cache
(`cache.py`), the quote provider (`data/tencent.py`), the financial-report
provider (`data/eastmoney.py`) and the staged screening pipeline
(`screener/engine.py`), shallowly embedded in Lean.

Conventions of the embedding:
* `datetime.now()` timestamps and `timedelta(hours=h)` durations are rationals
  measured in hours; prices and ratios are rationals.
* Python dictionaries keyed by strings become functions `String → Option _`
  (for cache state) or association lists (for provider result mappings, whose
  iteration order — dict insertion order — matters to the pipeline).
* Fallible operations return `Option`; the pipeline's result is wrapped in
  `Except` so that the presence or absence of a fatal error is expressible.
-/

namespace StockPicker

/-! ## cache.py — `CacheItem` and `CacheManager` -/

/-- `CacheItem` from cache.py: payload, creation timestamp and per-entry
expiry window in hours (Python default 24, annotated `int`). -/
structure CacheItem (α : Type) where
  data : α
  timestamp : ℚ
  expire_hours : ℤ := 24
  deriving Repr, DecidableEq

/-- `CacheItem.is_expired`: `datetime.now() - self.timestamp >
timedelta(hours=self.expire_hours)`, at explicit time `now`. -/
def CacheItem.is_expired (it : CacheItem α) (now : ℚ) : Bool :=
  decide (now - it.timestamp > (it.expire_hours : ℚ))

/-- The state of a `CacheManager`: the in-process `_memory_cache`, the payload
files on disk (`<prefix>/<key>.json`, here keyed directly by `key` — the
3-character sharding prefix only chooses a directory and cannot collide), and
the `cache_meta.json` index mapping a key to its creation time.  The meta
record's `size` field is written by `set` but never read by `get`, so it is
not modelled. -/
structure CacheState (α : Type) where
  memory : String → Option (CacheItem α)
  files : String → Option α
  meta : String → Option ℚ

/-- The state of a freshly created cache directory: nothing on disk,
nothing in memory. -/
def CacheState.empty (α : Type) : CacheState α :=
  ⟨fun _ => none, fun _ => none, fun _ => none⟩

/-- Constructing a new `CacheManager` over an existing cache directory
(`__init__` + `_load_meta`): the memory tier starts empty, the disk tier
(files and meta index) persists. -/
def CacheState.restart (s : CacheState α) : CacheState α :=
  { s with memory := fun _ => none }

/-- The disk-tier half of `CacheManager.get` (cache.py lines 55-65): if the
payload file exists and the key is in the meta index and the meta timestamp is
at most 24 hours old, the payload is returned and re-inserted into the memory
tier as `CacheItem(data, cached_time)` — with the *default* 24-hour window,
since the meta index does not record the entry's own `expire_hours`. -/
def diskLookup (s : CacheState α) (key : String) (now : ℚ) :
    Option α × CacheState α :=
  match s.files key, s.meta key with
  | some d, some t =>
      if now - t ≤ 24 then
        (some d,
         { s with memory := fun k => if k = key then some ⟨d, t, 24⟩ else s.memory k })
      else (none, s)
  | _, _ => (none, s)

/-- `CacheManager.get`: consult the memory tier first (deleting an expired
item), then fall back to the disk tier.  Returns the payload (or `none`) and
the post-call cache state. -/
def cacheGet (s : CacheState α) (key : String) (now : ℚ) :
    Option α × CacheState α :=
  match s.memory key with
  | some it =>
      if it.is_expired now then
        diskLookup
          { s with memory := fun k => if k = key then none else s.memory k }
          key now
      else (some it.data, s)
  | none => diskLookup s key now

/-- `CacheManager.set`: store to the memory tier with the supplied
`expire_hours`, write the payload file, and record `{'time': now}` in the
meta index. -/
def cacheSet (s : CacheState α) (key : String) (d : α) (expire_hours : ℤ)
    (now : ℚ) : CacheState α :=
  { memory := fun k => if k = key then some ⟨d, now, expire_hours⟩ else s.memory k
    files := fun k => if k = key then some d else s.files k
    meta := fun k => if k = key then some now else s.meta k }

/-! ## data/tencent.py — quote snapshot provider -/

/-- A parsed quote record as built by `TencentDataSource._fetch_batch`
(one entry of the returned mapping). -/
structure Quote where
  name : String
  price : ℚ
  pe : ℚ
  pb : ℚ
  market_cap : ℚ
  week_52_low : ℚ
  week_52_high : ℚ
  deriving Repr, DecidableEq

/-- Character-list version of Python string prefix test (used to build the
substring test below). -/
def startsWith : List Char → List Char → Bool
  | [], _ => true
  | _ :: _, [] => false
  | a :: p, b :: l => a == b && startsWith p l

/-- Character-list version of Python's substring containment. -/
def occursIn (p : List Char) : List Char → Bool
  | [] => p.isEmpty
  | b :: l => startsWith p (b :: l) || occursIn p l

/-- Python's `kw in s` on strings: `kw` occurs as a contiguous substring
of `s`. -/
def hasSubstr (s kw : String) : Bool := occursIn kw.data s.data

/-- `TencentDataSource.TECH_KEYWORDS`, verbatim. -/
def TECH_KEYWORDS : List String :=
  ["半导体", "芯片", "集成电路", "电子", "计算机", "软件", "互联网",
   "通信", "电信", "网络", "人工智能", "AI", "新能源", "光伏", "锂电",
   "新能源汽车", "电动车", "电池", "储能", "机器人", "自动化",
   "生物科技", "医药", "医疗器械", "创新药", "基因", "云计算", "大数据",
   "物联网", "5G", "区块链", "智能制造", "高端装备", "航空航天",
   "光学", "光电", "精密", "智能", "科技", "信息", "数字", "微", "芯",
   "锂", "钠", "硅", "碳", "纳", "量子"]

/-- `TencentDataSource.is_tech_stock`: empty name is rejected, otherwise any
keyword occurring as a substring of the name accepts. -/
def isTechStock (name : String) : Bool :=
  if name = "" then false
  else TECH_KEYWORDS.any (fun kw => hasSubstr name kw)

/-- Validity test applied in `get_realtime_data` before caching a fetched
payload: `data.get('name') and data.get('price', 0) > 0` (non-empty name,
strictly positive price). -/
def quoteValid (q : Quote) : Bool :=
  !(q.name == "") && decide (q.price > 0)

/-- The upstream batches of `get_realtime_data`: `range(0, len(to_fetch), 100)`
splits the miss list into chunks of 100. -/
def chunks100 (l : List α) : List (List α) :=
  if l.isEmpty then [] else l.take 100 :: chunks100 (l.drop 100)
termination_by l.length
decreasing_by
  cases l with
  | nil => simp [List.isEmpty] at *
  | cons a t => simp [List.length_drop]; omega

/-- `TencentDataSource._fetch_batch` on one chunk: the upstream response,
modelled per symbol (`upstream s = none` covers both a symbol missing from
the response and a whole-chunk network failure, which degrades to `{}`). -/
def fetchBatch (upstream : String → Option Quote) (batch : List String) :
    List (String × Quote) :=
  batch.filterMap fun s => (upstream s).map fun q => (s, q)

/-- The fetch loop of `get_realtime_data`: for each chunk's response mapping,
keep (and cache) exactly the entries passing `quoteValid`. -/
def processChunks (upstream : String → Option Quote) :
    List (List String) → List (String × Quote)
  | [] => []
  | b :: bs =>
      (fetchBatch upstream b).filter (fun p => quoteValid p.2)
        ++ processChunks upstream bs

/-- `TencentDataSource.get_realtime_data`: serve cache hits (keys
`"rt_" ++ symbol`), fetch the misses in chunks of 100, cache and return only
the valid fetched payloads.  Returns the result mapping (as an association
list in Python dict insertion order: hits first, then fetched) together with
the list of cache write-backs performed. -/
def getRealtimeData (cache : String → Option Quote)
    (upstream : String → Option Quote) (symbols : List String) :
    List (String × Quote) × List (String × Quote) :=
  let hits := symbols.filterMap fun s =>
    (cache ("rt_" ++ s)).map fun q => (s, q)
  let to_fetch := symbols.filter fun s => (cache ("rt_" ++ s)).isNone
  let writes := processChunks upstream (chunks100 to_fetch)
  (hits ++ writes, writes)

/-! ## data/eastmoney.py — financial report provider -/

/-- One annual record as stored in a `get_financial_data` result. -/
structure FinReport where
  year : String
  revenue : ℚ
  profit : ℚ
  revenue_growth : Option ℚ
  profit_growth : Option ℚ
  deriving Repr, DecidableEq

/-- A `get_financial_data` result: symbol, the (≤ 3) most recent annual
records, and the `has_3years` flag. -/
structure FinData where
  symbol : String
  reports : List FinReport
  has_3years : Bool
  deriving Repr, DecidableEq

/-- One raw record of the upstream `RPT_FCI_PERFORMANCEE` response.  The
growth fields are `Option` because the upstream JSON may carry `null`
(Python's `r.get('YSTZ', 0)` then yields `None`, later defaulted by
`or 0`). -/
structure RawReport where
  datatype : String
  report_date : String
  revenue : ℚ
  profit : ℚ
  revenue_growth : Option ℚ
  profit_growth : Option ℚ

/-- The report-shaping logic of `get_financial_data` (eastmoney.py lines
66-84): keep records whose `DATATYPE` contains "年报", project the fields,
truncate to the 3 most recent, and set `has_3years` from the truncated
length. -/
def buildFinData (symbol : String) (raw : List RawReport) : FinData :=
  let annual :=
    (((raw.filter fun r => hasSubstr r.datatype "年报").map fun r =>
      FinReport.mk (r.report_date.take 4) r.revenue r.profit
        r.revenue_growth r.profit_growth).take 3)
  ⟨symbol, annual, decide (3 ≤ annual.length)⟩

/-- 3-year average revenue growth, as computed in `check_growth_condition`:
`sum((r.get('revenue_growth') or 0) for r in reports[:3]) / 3`. -/
def avg_revenue_growth (reports : List FinReport) : ℚ :=
  (((reports.take 3).map fun r => r.revenue_growth.getD 0).sum) / 3

/-- 3-year average profit growth, same shape. -/
def avg_profit_growth (reports : List FinReport) : ℚ :=
  (((reports.take 3).map fun r => r.profit_growth.getD 0).sum) / 3

/-- `EastMoneyDataSource.check_growth_condition`: `financial_data` is the
`get_financial_data` result (`none` when the fetch failed or the symbol is
malformed).  Requires `has_3years` and at least 3 records, then checks the
averaged (or per-year) growth range inclusively. -/
def check_growth_condition (financial_data : Option FinData)
    (min_growth max_growth : ℚ) (use_average : Bool) : Bool :=
  match financial_data with
  | none => false
  | some fd =>
    if !fd.has_3years then false
    else if fd.reports.length < 3 then false
    else if use_average then
      if ¬ (min_growth ≤ avg_revenue_growth fd.reports
            ∧ avg_revenue_growth fd.reports ≤ max_growth) then false
      else if ¬ (min_growth ≤ avg_profit_growth fd.reports
            ∧ avg_profit_growth fd.reports ≤ max_growth) then false
      else true
    else
      (fd.reports.take 3).all fun r =>
        decide (min_growth ≤ r.revenue_growth.getD 0
                ∧ r.revenue_growth.getD 0 ≤ max_growth)
        && decide (min_growth ≤ r.profit_growth.getD 0
                ∧ r.profit_growth.getD 0 ≤ max_growth)

/-! ## screener/engine.py — the staged pipeline `Screener.screen` -/

/-- A candidate dict as built at cheap-filter acceptance (engine.py lines
82-90).  The enrichment fields written at expensive-filter acceptance
(`avg_revenue_growth` etc., display-only roundings) are not modelled; no
claim concerns them. -/
structure Candidate where
  symbol : String
  name : String
  price : ℚ
  pe : ℚ
  week_52_low : ℚ
  week_52_high : ℚ
  pb : ℚ
  deriving Repr, DecidableEq

/-- Build the candidate dict from a quote payload. -/
def mkCandidate (s : String) (q : Quote) : Candidate :=
  ⟨s, q.name, q.price, q.pe, q.week_52_low, q.week_52_high, q.pb⟩

/-- The cheap-filter loop body (engine.py lines 69-80), as a predicate on one
quote payload: the four `continue` tests in source order. -/
def cheapAccept (max_pe price_ratio : ℚ) (q : Quote) : Bool :=
  if q.price = 0 ∨ q.pe ≤ 0 ∨ q.week_52_low = 0 then false
  else if q.pe > max_pe then false
  else if !isTechStock q.name then false
  else if q.price ≥ q.week_52_low * price_ratio then false
  else true

/-- Modelled from the spec's words, for comparison with `cheapAccept` (claim
C2): all four predicates with (a) read as strict positivity — "price > 0 and
valuation ratio > 0 and 52-period low > 0". -/
def cheapAcceptSpec (max_pe price_ratio : ℚ) (q : Quote) : Bool :=
  decide (q.price > 0) && decide (q.pe > 0) && decide (q.week_52_low > 0)
    && decide (q.pe ≤ max_pe) && isTechStock q.name
    && decide (q.price < q.week_52_low * price_ratio)

/-- The cheap-filter loop over `data_map.items()` in dict order, producing
the candidate list. -/
def cheapStage (max_pe price_ratio : ℚ) :
    List (String × Quote) → List Candidate
  | [] => []
  | (s, q) :: rest =>
      if cheapAccept max_pe price_ratio q then
        mkCandidate s q :: cheapStage max_pe price_ratio rest
      else cheapStage max_pe price_ratio rest

/-- The `tech_count` counter: payloads passing the data-validity test, the
`max_pe` ceiling and the tech-keyword test (the counter is incremented
before the price-ratio test). -/
def techCount (max_pe : ℚ) (data_map : List (String × Quote)) : ℕ :=
  data_map.countP fun p =>
    if p.2.price = 0 ∨ p.2.pe ≤ 0 ∨ p.2.week_52_low = 0 then false
    else if p.2.pe > max_pe then false
    else isTechStock p.2.name

/-- Sorting relation of step 5: `final_candidates.sort(key=lambda x: x['pe'])`
compares by `pe` alone. -/
def peLe (a b : Candidate) : Prop := a.pe ≤ b.pe

instance : DecidableRel peLe := fun a b => inferInstanceAs (Decidable (a.pe ≤ b.pe))

instance : IsTotal Candidate peLe := ⟨fun a b => le_total a.pe b.pe⟩

instance : IsTrans Candidate peLe := ⟨fun _ _ _ h₁ h₂ => le_trans h₁ h₂⟩

/-- Step 5 of `screen`: Python's `list.sort` is stable, so it is modelled by
the canonical stable sort; then `final_candidates[:10]`. -/
def rankTop10 (final_candidates : List Candidate) : List Candidate :=
  (List.insertionSort peLe final_candidates).take 10

/-- Auxiliary strict-or-equal ordering on candidates: antisymmetric, used to
show that a `peLe`-sorted list of candidates with pairwise distinct `pe`
values is unique among its permutations. -/
def peStrict (a b : Candidate) : Prop := a.pe < b.pe ∨ a = b

instance : IsAntisymm Candidate peStrict :=
  ⟨by
    intro a b h₁ h₂
    rcases h₁ with h₁ | h₁
    · rcases h₂ with h₂ | h₂
      · exact absurd h₂ (lt_asymm h₁)
      · exact h₂.symm
    · exact h₁⟩

/-- Modelled from the spec: §7 of the spec expects two fatal conditions
(invalid configuration; zero quote data) to surface to the caller.  The
source's `Screener.screen` defines no error values and raises for neither
condition, so this type is populated from the spec's words purely to make
those expected outcomes *statable*; the embedding of `screen` below (from
the source) never produces them. -/
inductive FatalDiagnostic where
  | config_error
  | no_quote_data
  deriving Repr, DecidableEq

/-- The observable outcome of one `Screener.screen` run: the returned list
(`final_candidates[:10]`), the identifiers the two providers were asked for,
and the `self.stats` counters. -/
structure ScreenResult where
  picks : List Candidate
  quote_requested : List String
  fin_requested : List String
  total_scanned : ℕ
  valid_data : ℕ
  tech_stocks : ℕ
  after_preliminary : ℕ
  final_selected : ℕ
  deriving Repr, DecidableEq

/-- `Screener.screen`, with its collaborators passed explicitly:
`stocks` is `get_stock_list()`, `data_map` is the mapping returned by
`get_realtime_data(symbols)` (quote-provider response), `fin` is
`get_financial_data` (report-provider response), and `completed` is the
order in which `as_completed` yields the expensive-stage futures — the
theorems about a real run assume it is a permutation of the cheap-stage
candidate list.  `max_workers` only sizes the thread pool and does not
affect the collected results. -/
def screenRun (max_pe price_ratio growth_min growth_max : ℚ) (max_workers : ℕ)
    (stocks : List String) (data_map : List (String × Quote))
    (fin : String → Option FinData) (completed : List Candidate) :
    ScreenResult :=
  let _ := max_workers
  let candidates := cheapStage max_pe price_ratio data_map
  let final_candidates := completed.filter fun c =>
    check_growth_condition (fin c.symbol) growth_min growth_max true
  { picks := rankTop10 final_candidates
    quote_requested := stocks
    fin_requested := completed.map (·.symbol)
    total_scanned := stocks.length
    valid_data := data_map.length
    tech_stocks := techCount max_pe data_map
    after_preliminary := candidates.length
    final_selected := final_candidates.length }

/-- `Screener.screen` as observed by its caller: the run always terminates
normally with `screenRun`'s outcome — the source body raises for none of the
conditions modelled here, so no `FatalDiagnostic` is ever produced. -/
def screen (max_pe price_ratio growth_min growth_max : ℚ) (max_workers : ℕ)
    (stocks : List String) (data_map : List (String × Quote))
    (fin : String → Option FinData) (completed : List Candidate) :
    Except FatalDiagnostic ScreenResult :=
  Except.ok (screenRun max_pe price_ratio growth_min growth_max max_workers
    stocks data_map fin completed)

end StockPicker

open StockPicker

/-! ## Cache Store theorems (claims C1, C10) -/

/-- Helper: when the payload of `diskLookup` is present. -/
lemma diskLookup_isSome (s : CacheState α) (k : String) (now : ℚ) :
    ((diskLookup s k now).1).isSome = true ↔
      ((∃ d, s.files k = some d) ∧ ∃ t, s.meta k = some t ∧ now - t ≤ 24) := by
  unfold diskLookup
  cases hf : s.files k with
  | none => simp [hf]
  | some d =>
    cases hm : s.meta k with
    | none => simp [hf, hm]
    | some t =>
      by_cases h : now - t ≤ 24
      · simp [hf, hm, h]
        linarith
      · simp [hf, hm, h]
        linarith

/-- Helper: a disk hit (memory miss, file and meta present, meta timestamp at
most 24 hours old) returns the disk payload and re-inserts it into the memory
tier with the default 24-hour window. -/
lemma cacheGet_disk_hit (s : CacheState α) (k : String) (now t₀ : ℚ) (d : α)
    (hmem : s.memory k = none) (hf : s.files k = some d)
    (hm : s.meta k = some t₀) (h24 : now - t₀ ≤ 24) :
    (cacheGet s k now).1 = some d ∧
      (cacheGet s k now).2.memory k = some ⟨d, t₀, 24⟩ := by
  unfold cacheGet
  simp only [hmem]
  unfold diskLookup
  simp [hf, hm, h24]

/-- C1, amended: `cacheGet` returns a payload iff the memory tier holds an
unexpired item for the key (expiry per the item's own `expire_hours`), or the
durable tier holds a record whose meta timestamp is at most 24 hours old —
the per-entry TTL supplied at `set` governs the memory tier only. -/
theorem C1_get_iff_amended (α : Type) (s : CacheState α) (k : String) (now : ℚ) :
    ((cacheGet s k now).1).isSome = true ↔
      ((∃ it, s.memory k = some it ∧ it.is_expired now = false)
        ∨ ((∃ d, s.files k = some d) ∧ ∃ t, s.meta k = some t ∧ now - t ≤ 24)) := by
  unfold cacheGet
  cases hmem : s.memory k with
  | none =>
    rw [diskLookup_isSome]
    simp [hmem]
  | some it =>
    by_cases hexp : it.is_expired now
    · simp only [hexp, if_true]
      rw [diskLookup_isSome]
      simp [hmem, hexp]
    · simp [hmem, hexp]

/-- C1 counterexample: a payload stored with a 1-hour TTL at time 0, absent
from the memory tier (fresh process over the same cache directory), is still
served by `get` at time 2 — two hours later — although its own TTL has
lapsed (`is_expired` holds for the item that `set` created). -/
theorem C1_ttl_disk_counterexample :
    (cacheGet ((cacheSet (CacheState.empty ℕ) "abc" 42 1 0).restart) "abc" 2).1
        = some 42
      ∧ CacheItem.is_expired (CacheItem.mk (42 : ℕ) 0 1) 2 = true := by
  constructor
  · simp [cacheGet, diskLookup, cacheSet, CacheState.restart, CacheState.empty]
    norm_num
  · simp [CacheItem.is_expired]

/-- C10: `cacheGet` is not read-only.  (1) On a memory miss with a durable
record under 24 hours old, it inserts the payload into the memory tier
stamped with the original creation time and the default 24-hour window;
(2) this holds for every `expire_hours` supplied at `set` (the durable meta
index does not record it); (3) a memory item found expired is deleted — the
post-state never retains it. -/
theorem C10_get_frame_effects :
    (∀ (α : Type) (s : CacheState α) (k : String) (now t₀ : ℚ) (d : α),
        s.memory k = none → s.files k = some d → s.meta k = some t₀ →
        now - t₀ < 24 →
        (cacheGet s k now).1 = some d ∧
          (cacheGet s k now).2.memory k = some ⟨d, t₀, 24⟩)
    ∧ (∀ (α : Type) (s : CacheState α) (k : String) (d : α) (ttl : ℤ)
          (t₀ now : ℚ), now - t₀ < 24 →
        (cacheGet ((cacheSet s k d ttl t₀).restart) k now).1 = some d ∧
          (cacheGet ((cacheSet s k d ttl t₀).restart) k now).2.memory k
            = some ⟨d, t₀, 24⟩)
    ∧ (∀ (α : Type) (s : CacheState α) (k : String) (now : ℚ)
          (it : CacheItem α),
        s.memory k = some it → it.is_expired now = true →
        (cacheGet s k now).2.memory k ≠ some it) := by
  refine ⟨fun α s k now t₀ d hmem hf hm h24 =>
    cacheGet_disk_hit s k now t₀ d hmem hf hm (le_of_lt h24), ?_, ?_⟩
  · intro α s k d ttl t₀ now h24
    exact cacheGet_disk_hit _ k now t₀ d
      (by simp [cacheSet, CacheState.restart])
      (by simp [cacheSet, CacheState.restart])
      (by simp [cacheSet, CacheState.restart])
      (le_of_lt h24)
  · intro α s k now it hmem hexp hcontra
    unfold cacheGet at hcontra
    simp only [hmem, hexp, if_true] at hcontra
    unfold diskLookup at hcontra
    revert hcontra
    cases hf : s.files k with
    | none => simp [hf]
    | some d =>
      cases hm : s.meta k with
      | none => simp [hf, hm]
      | some t =>
        by_cases h : now - t ≤ 24
        · simp only [hf, hm, h, if_true]
          intro hcontra
          simp at hcontra
          subst hcontra
          simp [CacheItem.is_expired] at hexp
          linarith
        · simp [hf, hm, h]

/-- C10 witness: concrete instantiation of the second conjunct — a payload
stored with TTL 1 hour at time 0 is, after a restart and a `get` at time 2,
back in the memory tier with a 24-hour window. -/
theorem C10_get_frame_effects_witness :
    (cacheGet ((cacheSet (CacheState.empty ℕ) "w" 5 1 0).restart) "w" 2).1
        = some 5
      ∧ (cacheGet ((cacheSet (CacheState.empty ℕ) "w" 5 1 0).restart) "w"
          2).2.memory "w" = some ⟨5, 0, 24⟩ :=
  C10_get_frame_effects.2.1 ℕ (CacheState.empty ℕ) "w" 5 1 0 2 (by norm_num)

/-! ## Cheap-filter theorems (claim C2) -/

/-- C2 counterexample: a quote with a *negative* price (and positive `pe`,
positive 52-week low, a tech-keyword name) is accepted by the cheap filter,
because the source tests `price == 0`, not `price > 0`; the spec's predicate
(a) rejects it. -/
theorem C2_cheap_filter_counterexample :
    cheapAccept 100 2 (Quote.mk "测试科技" (-1) 5 0 0 1 2) = true
      ∧ cheapAcceptSpec 100 2 (Quote.mk "测试科技" (-1) 5 0 0 1 2) = false := by
  have htech : isTechStock "测试科技" = true := by decide
  constructor
  · simp only [cheapAccept, htech]
    norm_num
  · simp only [cheapAcceptSpec]
    norm_num

/-- C2, amended: the cheap filter accepts a quote iff (a') `price ≠ 0`,
`pe > 0` and `week_52_low ≠ 0` (the source rejects exact zeroes, not
non-positives, for price and low), (b) `pe ≤ max_pe`, (c) the name matches
the tech keyword set, and (d) `price < week_52_low * price_ratio`; the four
tests short-circuit in this order. -/
theorem C2_cheap_filter_amended (max_pe price_ratio : ℚ) (q : Quote) :
    cheapAccept max_pe price_ratio q = true ↔
      ((q.price ≠ 0 ∧ 0 < q.pe ∧ q.week_52_low ≠ 0)
        ∧ q.pe ≤ max_pe
        ∧ isTechStock q.name = true
        ∧ q.price < q.week_52_low * price_ratio) := by
  unfold cheapAccept
  split_ifs with h1 h2 h3 h4
  · simp only [Bool.false_eq_true, false_iff]
    rintro ⟨⟨hp, hpe, hlow⟩, -, -, -⟩
    rcases h1 with h | h | h
    · exact hp h
    · exact absurd hpe (not_lt.mpr h)
    · exact hlow h
  · simp only [Bool.false_eq_true, false_iff]
    rintro ⟨-, hpe, -, -⟩
    exact absurd h2 (not_lt.mpr hpe)
  · simp only [Bool.false_eq_true, false_iff]
    rintro ⟨-, -, htech, -⟩
    simp [htech] at h3
  · simp only [Bool.false_eq_true, false_iff]
    rintro ⟨-, -, -, hlt⟩
    exact absurd h4 (not_le.mpr hlt)
  · simp only [true_iff]
    push_neg at h1
    exact ⟨⟨h1.1, h1.2.1, h1.2.2⟩, not_lt.mp h2, by simpa using h3, not_le.mp h4⟩

/-! ## Growth-predicate theorems (claim C4) -/

/-- C4: the expensive growth predicate (averaged variant, as the pipeline
invokes it) rejects a failed fetch, and accepts a fetched report set iff it
is complete (exactly 3 annual records survive `get_financial_data`'s
shaping) and both 3-year average growth percentages lie inclusively within
`[min_growth, max_growth]`. -/
theorem C4_growth_predicate :
    (∀ (mn mx : ℚ) (b : Bool), check_growth_condition none mn mx b = false)
    ∧ (∀ (symbol : String) (raw : List RawReport) (mn mx : ℚ),
        check_growth_condition (some (buildFinData symbol raw)) mn mx true
            = true ↔
          ((buildFinData symbol raw).reports.length = 3
            ∧ (mn ≤ avg_revenue_growth (buildFinData symbol raw).reports
                ∧ avg_revenue_growth (buildFinData symbol raw).reports ≤ mx)
            ∧ (mn ≤ avg_profit_growth (buildFinData symbol raw).reports
                ∧ avg_profit_growth (buildFinData symbol raw).reports ≤ mx))) := by
  constructor
  · intro mn mx b
    rfl
  · intro symbol raw mn mx
    have hle : (buildFinData symbol raw).reports.length ≤ 3 := by
      simp [buildFinData]
    have h3y : (buildFinData symbol raw).has_3years
        = decide (3 ≤ (buildFinData symbol raw).reports.length) := by
      simp [buildFinData]
    simp only [check_growth_condition]
    by_cases hlen : (buildFinData symbol raw).reports.length = 3
    · have h3t : (buildFinData symbol raw).has_3years = true := by
        rw [h3y]; simp [hlen]
      have hnlt : ¬ ((buildFinData symbol raw).reports.length < 3) := by
        omega
      simp only [h3t, hnlt, Bool.not_true, Bool.false_eq_true, if_false,
        if_true]
      split_ifs with hR hP <;> simp_all
    · have hlt : (buildFinData symbol raw).reports.length < 3 :=
        lt_of_le_of_ne hle hlen
      have h3f : (buildFinData symbol raw).has_3years = false := by
        rw [h3y]; simp; omega
      simp only [h3f, Bool.not_false, if_true, Bool.false_eq_true, false_iff]
      rintro ⟨h, -, -⟩
      exact hlen h

/-! ## Ranking theorems (claim C3) -/

/-- C3 counterexample: two surviving candidates with equal valuation ratio
(`pe = 8`) and identifiers "600002", "600001".  The sort key is `pe` alone,
so each completion order is returned unchanged: the claimed identifier
tie-break does not happen (the arrival order 600002-before-600001 survives),
and the two completion orders of the same surviving set produce different
ranked outputs. -/
theorem C3_rank_counterexample :
    rankTop10 [Candidate.mk "600002" "甲科技" 10 8 5 20 1,
               Candidate.mk "600001" "乙科技" 10 8 5 20 1]
        = [Candidate.mk "600002" "甲科技" 10 8 5 20 1,
           Candidate.mk "600001" "乙科技" 10 8 5 20 1]
      ∧ rankTop10 [Candidate.mk "600001" "乙科技" 10 8 5 20 1,
                   Candidate.mk "600002" "甲科技" 10 8 5 20 1]
          = [Candidate.mk "600001" "乙科技" 10 8 5 20 1,
             Candidate.mk "600002" "甲科技" 10 8 5 20 1]
      ∧ ("600001" : String) < "600002"
      ∧ rankTop10 [Candidate.mk "600002" "甲科技" 10 8 5 20 1,
                   Candidate.mk "600001" "乙科技" 10 8 5 20 1]
          ≠ rankTop10 [Candidate.mk "600001" "乙科技" 10 8 5 20 1,
                       Candidate.mk "600002" "甲科技" 10 8 5 20 1] := by
  refine ⟨?_, ?_, by rw [String.lt_iff_toList_lt]; decide, ?_⟩
  · norm_num [rankTop10, List.insertionSort, List.orderedInsert, peLe]
  · norm_num [rankTop10, List.insertionSort, List.orderedInsert, peLe]
  · norm_num [rankTop10, List.insertionSort, List.orderedInsert, peLe]
    exact fun h => absurd h (by decide)

/-- C3, amended: step 5 sorts ascending by valuation ratio only — the sort is
stable, so tied ratios retain completion order and are *not* broken by
identifier — and truncates to the first 10; consequently the ranked output
is deterministic across completion orders exactly when the surviving
candidates' ratios are pairwise distinct. -/
theorem C3_rank_amended (l : List Candidate) :
    List.Sorted peLe (List.insertionSort peLe l)
      ∧ (List.insertionSort peLe l).Perm l
      ∧ rankTop10 l = (List.insertionSort peLe l).take 10
      ∧ (rankTop10 l).length ≤ 10
      ∧ (∀ l₂ : List Candidate, l.Perm l₂ →
          (∀ a ∈ l, ∀ b ∈ l, a.pe = b.pe → a = b) →
          rankTop10 l = rankTop10 l₂) := by
  refine ⟨List.sorted_insertionSort peLe l, List.perm_insertionSort peLe l,
    rfl, ?_, ?_⟩
  · simp [rankTop10]
  · intro l₂ hperm hinj
    have hinj₂ : ∀ a ∈ l₂, ∀ b ∈ l₂, a.pe = b.pe → a = b := fun a ha b hb =>
      hinj a (hperm.mem_iff.mpr ha) b (hperm.mem_iff.mpr hb)
    have hsort : ∀ (m : List Candidate),
        (∀ a ∈ m, ∀ b ∈ m, a.pe = b.pe → a = b) →
        List.Sorted peStrict (List.insertionSort peLe m) := by
      intro m hm
      refine List.Pairwise.imp_of_mem ?_ (List.sorted_insertionSort peLe m)
      intro a b ha hb hr
      rw [List.mem_insertionSort] at ha hb
      by_cases he : a.pe = b.pe
      · exact Or.inr (hm a ha b hb he)
      · exact Or.inl (lt_of_le_of_ne hr he)
    have hp : (List.insertionSort peLe l).Perm (List.insertionSort peLe l₂) :=
      (List.perm_insertionSort peLe l).trans
        (hperm.trans (List.perm_insertionSort peLe l₂).symm)
    have key : List.insertionSort peLe l = List.insertionSort peLe l₂ :=
      List.eq_of_perm_of_sorted hp (hsort l hinj) (hsort l₂ hinj₂)
    simp [rankTop10, key]

/-- C3 witness: for two candidates with distinct ratios, both completion
orders yield the same ranked output. -/
theorem C3_rank_amended_witness :
    rankTop10 [Candidate.mk "600001" "乙科技" 10 8 5 20 1,
               Candidate.mk "600002" "甲科技" 12 9 5 20 1]
      = rankTop10 [Candidate.mk "600002" "甲科技" 12 9 5 20 1,
                   Candidate.mk "600001" "乙科技" 10 8 5 20 1] :=
  (C3_rank_amended _).2.2.2.2 _
    (List.Perm.swap _ _ _)
    (by
      intro a ha b hb h
      simp at ha hb
      rcases ha with rfl | rfl <;> rcases hb with rfl | rfl <;>
        first
          | rfl
          | (exfalso; norm_num at h))

/-! ## Pipeline error-policy theorems (claims C5, C6) -/

/-- Helper: with an inverted growth range the growth predicate is
unsatisfiable (the averaged variant the pipeline uses). -/
lemma check_growth_bad_range (fd : Option FinData) (mn mx : ℚ) (h : mx < mn) :
    check_growth_condition fd mn mx true = false := by
  cases fd with
  | none => rfl
  | some d =>
    simp only [check_growth_condition]
    split_ifs with h1 h2 hR hP <;> try rfl
    exact absurd (le_trans hR.1 hR.2) (not_le.mpr h)

/-- C5 counterexample: with `growth_min = 100 > growth_max = 30` the run is
not rejected — no error is ever surfaced, and the quote provider is still
invoked for the whole universe (network activity happens). -/
theorem C5_config_counterexample :
    (screenRun 100 2 100 30 10 ["600519"] [] (fun _ => none) []).quote_requested
        = ["600519"]
      ∧ (100 : ℚ) > 30
      ∧ ∀ e, screen 100 2 100 30 10 ["600519"] [] (fun _ => none) []
          ≠ Except.error e := by
  exact ⟨rfl, by norm_num, fun _ h => Except.noConfusion h⟩

/-- C5, amended: the pipeline performs no configuration validation.  With
`growth_min > growth_max` the run proceeds (the quote provider is asked for
the full universe) and, the growth range being unsatisfiable, every
candidate fails the expensive stage: the run completes normally with an
empty pick list. -/
theorem C5_config_amended (mp pr gmin gmax : ℚ) (mw : ℕ)
    (stocks : List String) (dm : List (String × Quote))
    (fin : String → Option FinData) (completed : List Candidate)
    (h : gmax < gmin) :
    (screenRun mp pr gmin gmax mw stocks dm fin completed).picks = []
      ∧ (screenRun mp pr gmin gmax mw stocks dm fin completed).quote_requested
          = stocks
      ∧ screen mp pr gmin gmax mw stocks dm fin completed
          = Except.ok (screenRun mp pr gmin gmax mw stocks dm fin completed) := by
  have hfil : (completed.filter fun c =>
      check_growth_condition (fin c.symbol) gmin gmax true) = [] := by
    apply List.filter_eq_nil_iff.mpr
    intro c _
    simp [check_growth_bad_range _ _ _ h]
  exact ⟨by simp [screenRun, rankTop10, hfil], rfl, rfl⟩

/-- C5 witness: concrete run with the inverted range 100 > 30. -/
theorem C5_config_amended_witness :
    (screenRun 100 2 100 30 10 ["600519"] [] (fun _ => none) []).picks = []
      ∧ (screenRun 100 2 100 30 10 ["600519"] [] (fun _ => none)
          []).quote_requested = ["600519"]
      ∧ screen 100 2 100 30 10 ["600519"] [] (fun _ => none) []
          = Except.ok (screenRun 100 2 100 30 10 ["600519"] [] (fun _ => none)
              []) :=
  C5_config_amended 100 2 100 30 10 ["600519"] [] (fun _ => none) []
    (by norm_num)

/-- C6 counterexample: with an empty quote mapping the run does return an
empty pick list and requests no financial report — but it surfaces no fatal
diagnostic: the result is a normal `Except.ok`, indistinguishable from a
successful run with zero survivors. -/
theorem C6_empty_quotes_counterexample :
    (screenRun 100 2 30 100 10 ["000001"] [] (fun _ => none) []).picks = []
      ∧ (screenRun 100 2 30 100 10 ["000001"] [] (fun _ => none)
          []).fin_requested = []
      ∧ ∀ e, screen 100 2 30 100 10 ["000001"] [] (fun _ => none) []
          ≠ Except.error e :=
  ⟨rfl, rfl, fun _ h => Except.noConfusion h⟩

/-- C6, amended: if the quote provider returns an empty mapping, a real run
(whose expensive-stage completion order is a permutation of the — empty —
cheap-stage output) returns an empty pick list and performs no
financial-report fetch, but completes normally: no diagnostic is surfaced
to the caller. -/
theorem C6_empty_quotes_amended (mp pr gmin gmax : ℚ) (mw : ℕ)
    (stocks : List String) (fin : String → Option FinData)
    (completed : List Candidate)
    (hperm : completed.Perm (cheapStage mp pr [])) :
    (screenRun mp pr gmin gmax mw stocks [] fin completed).picks = []
      ∧ (screenRun mp pr gmin gmax mw stocks [] fin completed).fin_requested
          = []
      ∧ screen mp pr gmin gmax mw stocks [] fin completed
          = Except.ok (screenRun mp pr gmin gmax mw stocks [] fin completed) := by
  have hc : completed = [] := hperm.eq_nil
  subst hc
  exact ⟨rfl, rfl, rfl⟩

/-- C6 witness: the empty-universe run at concrete parameters. -/
theorem C6_empty_quotes_amended_witness :
    (screenRun 100 2 30 100 10 ["000002"] [] (fun _ => none) []).picks = []
      ∧ (screenRun 100 2 30 100 10 ["000002"] [] (fun _ => none)
          []).fin_requested = []
      ∧ screen 100 2 30 100 10 ["000002"] [] (fun _ => none) []
          = Except.ok (screenRun 100 2 30 100 10 ["000002"] [] (fun _ => none)
              []) :=
  C6_empty_quotes_amended 100 2 30 100 10 ["000002"] (fun _ => none) []
    (List.Perm.refl [])

/-! ## Stage-ordering theorem (claim C7) -/

/-- Helper: the identifiers of the cheap-stage output are exactly the
identifiers of the quote entries accepted by `cheapAccept`, in order. -/
lemma cheapStage_map_symbol (mp pr : ℚ) (dm : List (String × Quote)) :
    (cheapStage mp pr dm).map (·.symbol)
      = (dm.filter fun p => cheapAccept mp pr p.2).map Prod.fst := by
  induction dm with
  | nil => rfl
  | cons p rest ih =>
    cases p with
    | mk s q =>
      by_cases h : cheapAccept mp pr q
      · simp [cheapStage, h, mkCandidate, ih]
      · simp [cheapStage, h, ih]

/-- C7: in a real run (expensive-stage completion order a permutation of the
cheap-stage output), the multiset of identifiers sent to the report provider
is exactly the multiset of identifiers accepted by the cheap filter; in
particular an identifier is fetched iff its quote passed the cheap stage. -/
theorem C7_stage_ordering (mp pr gmin gmax : ℚ) (mw : ℕ)
    (stocks : List String) (dm : List (String × Quote))
    (fin : String → Option FinData) (completed : List Candidate)
    (hperm : completed.Perm (cheapStage mp pr dm)) :
    ((screenRun mp pr gmin gmax mw stocks dm fin completed).fin_requested).Perm
        ((dm.filter fun p => cheapAccept mp pr p.2).map Prod.fst)
      ∧ ∀ s, s ∈ (screenRun mp pr gmin gmax mw stocks dm fin
            completed).fin_requested ↔
          s ∈ (dm.filter fun p => cheapAccept mp pr p.2).map Prod.fst := by
  have h2 : (completed.map (·.symbol)).Perm
      ((cheapStage mp pr dm).map (·.symbol)) := hperm.map _
  rw [cheapStage_map_symbol] at h2
  exact ⟨h2, fun s => h2.mem_iff⟩

/-- C7 witness: a two-quote universe in which "600000" passes the cheap
filter and "600001" fails it (zero price); only "600000" is fetched. -/
theorem C7_stage_ordering_witness :
    ((screenRun 100 2 30 100 10 ["600000", "600001"]
        [("600000", Quote.mk "前进科技" 10 15 1 1 6 20),
         ("600001", Quote.mk "后退科技" 0 15 1 1 6 20)] (fun _ => none)
        (cheapStage 100 2
          [("600000", Quote.mk "前进科技" 10 15 1 1 6 20),
           ("600001", Quote.mk "后退科技" 0 15 1 1 6 20)])).fin_requested).Perm
      (([("600000", Quote.mk "前进科技" 10 15 1 1 6 20),
         ("600001", Quote.mk "后退科技" 0 15 1 1 6 20)].filter
            fun p => cheapAccept 100 2 p.2).map Prod.fst) :=
  (C7_stage_ordering 100 2 30 100 10 ["600000", "600001"] _ (fun _ => none) _
    (List.Perm.refl _)).1

/-! ## Quote-provider caching theorems (claim C8) -/

/-- Helper: concatenating the 100-chunks restores the original list. -/
lemma chunks100_flatten_aux (n : ℕ) :
    ∀ (l : List α), l.length ≤ n → (chunks100 l).flatten = l := by
  induction n with
  | zero =>
    intro l h
    have hl : l = [] := List.length_eq_zero.mp (Nat.le_zero.mp h)
    subst hl
    rw [chunks100]
    simp
  | succ n ih =>
    intro l h
    rw [chunks100]
    by_cases he : l.isEmpty
    · simp only [he, if_true]
      exact (List.isEmpty_iff.mp he).symm
    · have hpos : 0 < l.length := by
        cases l with
        | nil => simp at he
        | cons a t => simp
      rw [if_neg he, List.flatten_cons, ih (l.drop 100) (by simp; omega),
        List.take_append_drop]

/-- Helper: splitting the miss list into chunks of 100 does not change which
entries are fetched, validated and written. -/
lemma chunks100_flatten (l : List α) : (chunks100 l).flatten = l :=
  chunks100_flatten_aux l.length l le_rfl

/-- Helper: the chunked fetch loop equals one validity-filtered pass over the
flattened miss list. -/
lemma processChunks_eq (upstream : String → Option Quote)
    (bs : List (List String)) :
    processChunks upstream bs
      = ((bs.flatten.filterMap fun s => (upstream s).map fun q => (s, q)).filter
          fun p => quoteValid p.2) := by
  induction bs with
  | nil => rfl
  | cons b bs ih =>
    simp [processChunks, fetchBatch, ih, List.filterMap_append,
      List.filter_append]

/-- Helper: the write-backs of one `get_realtime_data` call, closed form. -/
lemma getRealtimeData_writes (cache upstream : String → Option Quote)
    (symbols : List String) :
    (getRealtimeData cache upstream symbols).2
      = (((symbols.filter fun s => (cache ("rt_" ++ s)).isNone).filterMap
            fun s => (upstream s).map fun q => (s, q)).filter
          fun p => quoteValid p.2) := by
  simp only [getRealtimeData]
  rw [processChunks_eq, chunks100_flatten]

/-- C8: during one batch quote fetch, (1) a payload is written back to the
cache iff its symbol was requested and missed the cache, the upstream
returned that payload, and the payload is valid (non-empty name, positive
price); (2) every write-back is valid; (3) if the cache holds only valid
payloads, the returned mapping holds only valid payloads — invalid upstream
responses are silently dropped (absence), never cached, never returned. -/
theorem C8_quote_write_back (cache upstream : String → Option Quote)
    (symbols : List String) :
    (∀ s q, (s, q) ∈ (getRealtimeData cache upstream symbols).2 ↔
        (s ∈ symbols ∧ cache ("rt_" ++ s) = none ∧ upstream s = some q
          ∧ quoteValid q = true))
      ∧ (∀ p ∈ (getRealtimeData cache upstream symbols).2,
          quoteValid p.2 = true)
      ∧ ((∀ k q', cache k = some q' → quoteValid q' = true) →
          ∀ p ∈ (getRealtimeData cache upstream symbols).1,
            quoteValid p.2 = true) := by
  refine ⟨?_, ?_, ?_⟩
  · intro s q
    rw [getRealtimeData_writes]
    simp only [List.mem_filter, List.mem_filterMap, List.mem_filter,
      Option.map_eq_some', Option.isNone_iff_eq_none]
    constructor
    · rintro ⟨⟨x, ⟨hxs, hxc⟩, a, hup, hxa⟩, hv⟩
      have hx : x = s := congrArg Prod.fst hxa
      have ha : a = q := congrArg Prod.snd hxa
      subst hx
      subst ha
      exact ⟨hxs, hxc, hup, hv⟩
    · rintro ⟨hs, hc, hup, hv⟩
      exact ⟨⟨s, ⟨hs, hc⟩, q, hup, rfl⟩, hv⟩
  · intro p hp
    rw [getRealtimeData_writes] at hp
    exact (List.mem_filter.mp hp).2
  · intro hcache p hp
    simp only [getRealtimeData] at hp
    rcases List.mem_append.mp hp with h | h
    · obtain ⟨x, hx, hmap⟩ := List.mem_filterMap.mp h
      cases hq : cache ("rt_" ++ x) with
      | none => rw [hq] at hmap; simp at hmap
      | some q' =>
        rw [hq] at hmap
        simp only [Option.map_some'] at hmap
        cases hmap
        exact hcache _ _ hq
    · rw [processChunks_eq, chunks100_flatten] at h
      exact (List.mem_filter.mp h).2

/-- C8 witness: a one-symbol universe served from a cache holding only valid
payloads — the returned payload for "600000" is valid. -/
theorem C8_quote_write_back_witness :
    quoteValid (("600000", Quote.mk "测试科技" 10 15 1 1 6 20) :
        String × Quote).2 = true :=
  (C8_quote_write_back
      (fun k => if k = "rt_600000" then
        some (Quote.mk "测试科技" 10 15 1 1 6 20) else none)
      (fun _ => none) ["600000"]).2.2
    (by
      intro k q' h
      by_cases hk : k = "rt_600000"
      · rw [if_pos hk] at h
        cases h
        simp [quoteValid]
      · rw [if_neg hk] at h
        cases h)
    ("600000", Quote.mk "测试科技" 10 15 1 1 6 20)
    (by simp [getRealtimeData, chunks100, processChunks])
